import Mathlib

/-!
# Admission-review adapter (`src/helpers/admission.go`)

A shallow embedding of `writeErr` and `AdmitFunc.ServeHTTP`.

The handler is effectful: it logs, reads and closes the request body, calls the
deserializer and the decision function, and encodes documents to the response
writer.  Every such effect is recorded, in program order, as an `Event` of a
trace.  The collaborators that live outside the repository (the request body,
the deserializer, the decision function, the response writer) are parameters.
The Kubernetes wire types are records whose zero values are the field defaults,
so that a Go composite literal reads the same here.
-/

namespace Helpers

/-! ## Data model -/

/-- A Go `[]byte`. -/
abbrev Bytes := List Nat

/-- A non-nil Go `error`; `nil` is `none` of `Option GoError`. -/
structure GoError where
  msg : String
  deriving DecidableEq, Repr

/-- The `Error()` method of the `error` interface. -/
def GoError.Error (e : GoError) : String := e.msg

/-- Go's `fmt.Errorf` applied to a format string without verbs. -/
def Errorf (s : String) : GoError := ⟨s⟩

/-- Type descriptor `metav1.TypeMeta`. -/
structure TypeMeta where
  Kind : String := ""
  APIVersion : String := ""
  deriving DecidableEq, Repr

/-- Result record `metav1.Status`; the handler only ever sets `Message`.  The
list metadata is left out and `Details` is carried as a raw value: the handler
neither reads nor writes them. -/
structure Status where
  TypeMeta : TypeMeta := {}
  Status : String := ""
  Message : String := ""
  Reason : String := ""
  Details : Option String := none
  Code : Int := 0
  deriving DecidableEq, Repr

/-- Group, version and kind (or resource) triple used inside a request. -/
structure GroupVersion where
  Group : String := ""
  Version : String := ""
  Name : String := ""
  deriving DecidableEq, Repr

/-- Record `admv1.AdmissionRequest`; the handler reads nothing of it but `UID`,
so user info, objects and options are carried as raw values. -/
structure AdmissionRequest where
  UID : String := ""
  Kind : GroupVersion := {}
  Resource : GroupVersion := {}
  SubResource : String := ""
  RequestKind : Option GroupVersion := none
  RequestResource : Option GroupVersion := none
  RequestSubResource : String := ""
  Name : String := ""
  Namespace : String := ""
  Operation : String := ""
  UserInfo : String := ""
  Object : Bytes := []
  OldObject : Bytes := []
  DryRun : Option Bool := none
  Options : Bytes := []
  deriving DecidableEq, Repr

/-- Record `admv1.AdmissionResponse`. -/
structure AdmissionResponse where
  UID : String := ""
  Allowed : Bool := false
  Result : Option Status := none
  Patch : Bytes := []
  PatchType : Option String := none
  AuditAnnotations : List (String × String) := []
  Warnings : List String := []
  deriving DecidableEq, Repr

/-- Record `admv1.AdmissionReview`; `Request` and `Response` are pointers. -/
structure AdmissionReview where
  TypeMeta : TypeMeta := {}
  Request : Option AdmissionRequest := none
  Response : Option AdmissionResponse := none
  deriving DecidableEq, Repr

/-- A value handed to `json.NewEncoder(w).Encode`: the handler passes either a
bare `AdmissionResponse` (in `writeErr`) or an `AdmissionReview`. -/
inductive Doc where
  | response (r : AdmissionResponse)
  | review (ar : AdmissionReview)
  deriving DecidableEq, Repr

/-- Which logger an entry goes to: the package-level `lg` or logrus itself. -/
inductive Logger where
  | lg
  | logrus
  deriving DecidableEq, Repr

/-- One observable effect of the handler. -/
inductive Event where
  | logError (l : Logger) (err : GoError) (text : String)
  | logInfo (l : Logger) (res : AdmissionReview) (text : String)
  | readAll
  | close
  | decode (bs : Bytes)
  | call (ar : AdmissionReview)
  | encode (d : Doc)
  deriving DecidableEq, Repr

/-- How a run of the handler ends: it returns, or it faults (a Go panic). -/
inductive Outcome where
  | returned
  | panicked
  deriving DecidableEq, Repr

/-- A run of the handler: its effects in order, and how it ended. -/
structure Run where
  trace : List Event
  outcome : Outcome
  deriving DecidableEq, Repr

/-! ## Collaborators -/

/-- A non-nil `r.Body`: what `io.ReadAll` yields for it. -/
structure Body where
  data : Bytes
  err : Option GoError

/-- The part of `*http.Request` the handler looks at; `Body` may be nil. -/
structure Request where
  Body : Option Body

/-- The response writer, seen through `json.NewEncoder(w).Encode`: the error,
if any, of encoding and writing a document. -/
structure ResponseWriter where
  encodeErr : Doc → Option GoError

/-- The call `Codecs.UniversalDeserializer().Decode(bs, nil, &ar)`. -/
abbrev Deserializer := Bytes → Except GoError AdmissionReview

/-- The adapter type `AdmitFunc`: a response pointer and an error, either of
which may be nil. -/
abbrev AdmitFunc := AdmissionReview → Option AdmissionResponse × Option GoError

/-! ## The code -/

/-- Function `writeErr`: log the error, then encode an `AdmissionResponse`
whose `Result` carries the error text; the result of `Encode` is dropped. -/
def writeErr (err : GoError) (_w : ResponseWriter) : List Event :=
  [ Event.logError Logger.lg err "writing error response",
    Event.encode (Doc.response { Result := some { Message := err.Error } }) ]

/-- Lines 76 to 86 of `ServeHTTP`: the fresh envelope, the info log, the
encode, and the log of an encode failure. -/
def encodeReview (tm : TypeMeta) (res : Option AdmissionResponse)
    (w : ResponseWriter) : Run :=
  let ar : AdmissionReview := { TypeMeta := tm, Response := res }
  let out := [Event.logInfo Logger.lg ar "writing response", Event.encode (Doc.review ar)]
  match w.encodeErr (Doc.review ar) with
  | some err =>
    ⟨out ++ [Event.logError Logger.logrus err "could not serialize admissionreview"],
      Outcome.returned⟩
  | none => ⟨out, Outcome.returned⟩

/-- The tail of `ServeHTTP` after the decision function returned no error: the
UID copy through the response pointer (a fault when it is nil), then the
envelope is built and encoded. -/
def respond (ar : AdmissionReview) (res : Option AdmissionResponse)
    (w : ResponseWriter) : Run :=
  match ar.Request with
  | some req =>
    match res with
    | none => ⟨[], Outcome.panicked⟩
    | some res => encodeReview ar.TypeMeta (some { res with UID := req.UID }) w
  | none => encodeReview ar.TypeMeta res w

/-- The body of `ServeHTTP` from the `io.ReadAll` call on, without the deferred
close. -/
def serveBody (codecs : Deserializer) (a : AdmitFunc) (w : ResponseWriter)
    (body : Body) : Run :=
  match body.err with
  | some err => ⟨Event.readAll :: writeErr err w, Outcome.returned⟩
  | none =>
    let bs := body.data
    match codecs bs with
    | Except.error err =>
      ⟨Event.readAll :: Event.decode bs :: writeErr err w, Outcome.returned⟩
    | Except.ok ar =>
      match a ar with
      | (_, some err) =>
        ⟨Event.readAll :: Event.decode bs :: Event.call ar :: writeErr err w,
          Outcome.returned⟩
      | (res, none) =>
        let tail := respond ar res w
        ⟨Event.readAll :: Event.decode bs :: Event.call ar :: tail.trace, tail.outcome⟩

/-- Method `AdmitFunc.ServeHTTP`.  The deferred `r.Body.Close()` runs when the
function is left, by return or by panic, so it ends the trace of either. -/
def ServeHTTP (codecs : Deserializer) (a : AdmitFunc) (w : ResponseWriter)
    (r : Request) : Run :=
  match r.Body with
  | none => ⟨writeErr (Errorf "no body") w, Outcome.returned⟩
  | some body =>
    let run := serveBody codecs a w body
    ⟨run.trace ++ [Event.close], run.outcome⟩

/-! ## Observations on a run -/

/-- The documents encoded to the response writer, in order. -/
def docs : List Event → List Doc
  | [] => []
  | Event.encode d :: es => d :: docs es
  | _ :: es => docs es

/-- The reviews the decision function was invoked on, in order. -/
def calls : List Event → List AdmissionReview
  | [] => []
  | Event.call ar :: es => ar :: calls es
  | _ :: es => calls es

/-- Number of `io.ReadAll` attempts. -/
def reads : List Event → Nat
  | [] => 0
  | Event.readAll :: es => reads es + 1
  | _ :: es => reads es

/-- Number of times the body stream was closed. -/
def closes : List Event → Nat
  | [] => 0
  | Event.close :: es => closes es + 1
  | _ :: es => closes es

/-- The byte strings handed to the deserializer, in order. -/
def decodes : List Event → List Bytes
  | [] => []
  | Event.decode bs :: es => bs :: decodes es
  | _ :: es => decodes es

/-- The error document of `writeErr` for an error text. -/
def errDoc (text : String) : Doc :=
  Doc.response { Result := some { Message := text } }

/-- Top-level member names of the JSON object `encoding/json` produces for a
document, following the struct tags of the Kubernetes types (`omitempty`
drops empty strings, nil pointers and empty slices or maps; `TypeMeta` is
inlined). -/
def Doc.keys : Doc → List String
  | Doc.response r =>
    ["uid", "allowed"]
      ++ (if r.Result.isSome then ["status"] else [])
      ++ (if r.Patch.isEmpty then [] else ["patch"])
      ++ (if r.PatchType.isSome then ["patchType"] else [])
      ++ (if r.AuditAnnotations.isEmpty then [] else ["auditAnnotations"])
      ++ (if r.Warnings.isEmpty then [] else ["warnings"])
  | Doc.review ar =>
    (if ar.TypeMeta.Kind = "" then [] else ["kind"])
      ++ (if ar.TypeMeta.APIVersion = "" then [] else ["apiVersion"])
      ++ (if ar.Request.isSome then ["request"] else [])
      ++ (if ar.Response.isSome then ["response"] else [])

/-- The `Response` member of a written document seen as an `AdmissionReview`
envelope: a bare `AdmissionResponse` has no such member. -/
def Doc.Response : Doc → Option AdmissionResponse
  | Doc.response _ => none
  | Doc.review ar => ar.Response

/-! ## Sample collaborators -/

/-- An inbound review with a request of UID "abc". -/
def sampleReview : AdmissionReview :=
  { TypeMeta := { Kind := "AdmissionReview", APIVersion := "admission.k8s.io/v1" },
    Request := some { UID := "abc", Operation := "CREATE" } }

/-- The bytes of the JSON document of `sampleReview`. -/
def sampleBytes : Bytes :=
  ("\x7b\"kind\":\"AdmissionReview\",\"apiVersion\":\"admission.k8s.io/v1\"," ++
    "\"request\":\x7b\"uid\":\"abc\",\"operation\":\"CREATE\"\x7d\x7d").toList.map Char.toNat

/-- The error of the deserializer on a truncated JSON document. -/
def truncatedErr : GoError :=
  ⟨"couldn't get version/kind; json parse error: unexpected end of JSON input"⟩

/-- A stand-in for `Codecs.UniversalDeserializer()` that answers as it does on
the bodies used below.  The scheme of the package has no type registered, so
the bytes are unmarshalled straight into the review: empty input and the empty
JSON object give the zero review without error, `sampleBytes` gives
`sampleReview`, and anything else is answered like a truncated JSON document,
with an error. -/
def sampleCodecs : Deserializer := fun bs =>
  if bs = [] then Except.ok {}
  else if bs = [123, 125] then Except.ok {}
  else if bs = sampleBytes then Except.ok sampleReview
  else Except.error truncatedErr

/-- A decision function that allows everything, with a UID of its own. -/
def allowAll : AdmitFunc := fun _ => (some { UID := "zzz", Allowed := true }, none)

/-- A decision function that fails, returning a response alongside the error. -/
def rejectAll : AdmitFunc :=
  fun _ => (some { UID := "zzz", Allowed := true, Patch := [1, 2] }, some ⟨"policy violation"⟩)

/-- A decision function that returns neither a response nor an error. -/
def nilNil : AdmitFunc := fun _ => (none, none)

/-- A writer on which every encode succeeds. -/
def okWriter : ResponseWriter := ⟨fun _ => none⟩

/-- A writer on which every encode fails. -/
def brokenWriter : ResponseWriter := ⟨fun _ => some ⟨"broken pipe"⟩⟩

/-- A body holding the JSON document of `sampleReview`. -/
def sampleBody : Body := ⟨sampleBytes, none⟩

/-- A body that is present but zero-length. -/
def emptyBody : Body := ⟨[], none⟩

/-- A body holding the two bytes of an empty JSON object. -/
def emptyObjectBody : Body := ⟨[123, 125], none⟩

/-- A body holding a lone opening brace, a truncated JSON document. -/
def truncatedBody : Body := ⟨[123], none⟩

/-- A body whose read fails. -/
def failingBody : Body := ⟨[], some ⟨"unexpected EOF"⟩⟩

/-! ## Shared lemmas -/

theorem docs_append (xs ys : List Event) : docs (xs ++ ys) = docs xs ++ docs ys := by
  induction xs with
  | nil => rfl
  | cons x xs ih => cases x <;> simp [docs, ih]

theorem closes_append (xs ys : List Event) : closes (xs ++ ys) = closes xs + closes ys := by
  induction xs with
  | nil => simp [closes]
  | cons x xs ih => cases x <;> simp [closes, ih]; omega

theorem docs_encodeReview (tm : TypeMeta) (res : Option AdmissionResponse)
    (w : ResponseWriter) :
    docs (encodeReview tm res w).trace
      = [Doc.review { TypeMeta := tm, Request := none, Response := res }] := by
  cases h : w.encodeErr (Doc.review { TypeMeta := tm, Response := res }) <;>
    simp [encodeReview, h, docs, closes]

theorem outcome_encodeReview (tm : TypeMeta) (res : Option AdmissionResponse)
    (w : ResponseWriter) : (encodeReview tm res w).outcome = Outcome.returned := by
  cases h : w.encodeErr (Doc.review { TypeMeta := tm, Response := res }) <;>
    simp [encodeReview, h, docs, closes]

theorem closes_encodeReview (tm : TypeMeta) (res : Option AdmissionResponse)
    (w : ResponseWriter) : closes (encodeReview tm res w).trace = 0 := by
  cases h : w.encodeErr (Doc.review { TypeMeta := tm, Response := res }) <;>
    simp [encodeReview, h, docs, closes]

theorem encodeReview_of_encodeErr (tm : TypeMeta) (res : Option AdmissionResponse)
    (w : ResponseWriter) (werr : GoError)
    (h : w.encodeErr (Doc.review { TypeMeta := tm, Request := none, Response := res })
      = some werr) :
    encodeReview tm res w
      = ⟨[Event.logInfo Logger.lg { TypeMeta := tm, Request := none, Response := res }
            "writing response",
          Event.encode (Doc.review { TypeMeta := tm, Request := none, Response := res }),
          Event.logError Logger.logrus werr "could not serialize admissionreview"],
        Outcome.returned⟩ := by
  simp [encodeReview, h]

theorem closes_respond (ar : AdmissionReview) (res : Option AdmissionResponse)
    (w : ResponseWriter) : closes (respond ar res w).trace = 0 := by
  unfold respond
  cases ar.Request with
  | none => exact closes_encodeReview _ _ _
  | some req =>
    cases res with
    | none => rfl
    | some r => exact closes_encodeReview _ _ _

theorem docs_respond_of_returned (ar : AdmissionReview) (res : Option AdmissionResponse)
    (w : ResponseWriter) (h : (respond ar res w).outcome = Outcome.returned) :
    (docs (respond ar res w).trace).length = 1 := by
  unfold respond at h ⊢
  cases hreq : ar.Request with
  | none => simp [docs_encodeReview]
  | some req =>
    cases res with
    | none => simp [hreq] at h
    | some r => simp [docs_encodeReview]

theorem ServeHTTP_success (codecs : Deserializer) (a : AdmitFunc) (w : ResponseWriter)
    (body : Body) (ar : AdmissionReview) (res : Option AdmissionResponse)
    (hread : body.err = none) (hdec : codecs body.data = Except.ok ar)
    (hres : a ar = (res, none)) :
    ServeHTTP codecs a w ⟨some body⟩
      = ⟨Event.readAll :: Event.decode body.data :: Event.call ar ::
          ((respond ar res w).trace ++ [Event.close]), (respond ar res w).outcome⟩ := by
  simp [ServeHTTP, serveBody, hread, hdec, hres]

theorem closes_serveBody (codecs : Deserializer) (a : AdmitFunc) (w : ResponseWriter)
    (body : Body) : closes (serveBody codecs a w body).trace = 0 := by
  cases hread : body.err with
  | some err => simp [serveBody, hread, closes, writeErr]
  | none =>
    cases hdec : codecs body.data with
    | error err => simp [serveBody, hread, hdec, closes, writeErr]
    | ok ar =>
      rcases hres : a ar with ⟨res, _ | err⟩
      · simp [serveBody, hread, hdec, hres, closes, closes_respond]
      · simp [serveBody, hread, hdec, hres, closes, writeErr]

theorem docs_serveBody_of_returned (codecs : Deserializer) (a : AdmitFunc)
    (w : ResponseWriter) (body : Body)
    (h : (serveBody codecs a w body).outcome = Outcome.returned) :
    (docs (serveBody codecs a w body).trace).length = 1 := by
  cases hread : body.err with
  | some err => simp [serveBody, hread, docs, writeErr]
  | none =>
    cases hdec : codecs body.data with
    | error err => simp [serveBody, hread, hdec, docs, writeErr]
    | ok ar =>
      rcases hres : a ar with ⟨res, _ | err⟩
      · simp only [serveBody, hread, hdec, hres] at h
        simp [serveBody, hread, hdec, hres, docs, docs_respond_of_returned ar res w h]
      · simp [serveBody, hread, hdec, hres, docs, writeErr]

end Helpers

namespace Helpers

/-- C1: on the success path with a Request present, the one document written is
an envelope whose Response is the decision function's response with its UID
replaced by the request's UID and every other field unchanged. -/
theorem C1_success_uid_correlated (codecs : Deserializer) (a : AdmitFunc)
    (w : ResponseWriter) (body : Body) (ar : AdmissionReview)
    (req : AdmissionRequest) (res : AdmissionResponse)
    (hread : body.err = none) (hdec : codecs body.data = Except.ok ar)
    (hreq : ar.Request = some req) (hres : a ar = (some res, none)) :
    ∃ out : AdmissionResponse,
      (docs (ServeHTTP codecs a w ⟨some body⟩).trace).map Doc.Response = [some out]
      ∧ out = { res with UID := req.UID }
      ∧ out.UID = req.UID ∧ out.Allowed = res.Allowed ∧ out.Result = res.Result
      ∧ out.Patch = res.Patch ∧ out.PatchType = res.PatchType
      ∧ out.AuditAnnotations = res.AuditAnnotations ∧ out.Warnings = res.Warnings := by
  refine ⟨{ res with UID := req.UID }, ?_, rfl, rfl, rfl, rfl, rfl, rfl, rfl, rfl⟩
  rw [ServeHTTP_success codecs a w body ar (some res) hread hdec hres]
  simp [respond, hreq, docs, docs_append, docs_encodeReview, Doc.Response]

/-- Witness for C1: request UID "abc", decision response with UID "zzz". -/
theorem C1_success_uid_correlated_witness :
    sampleBody.err = none ∧ sampleCodecs sampleBody.data = Except.ok sampleReview
    ∧ sampleReview.Request = some { UID := "abc", Operation := "CREATE" }
    ∧ allowAll sampleReview = (some { UID := "zzz", Allowed := true }, none)
    ∧ ∃ out : AdmissionResponse,
      (docs (ServeHTTP sampleCodecs allowAll okWriter ⟨some sampleBody⟩).trace).map
          Doc.Response = [some out]
      ∧ out = { ({ UID := "zzz", Allowed := true } : AdmissionResponse) with UID := "abc" }
      ∧ out.UID = "abc" ∧ out.Allowed = true ∧ out.Result = none
      ∧ out.Patch = [] ∧ out.PatchType = none
      ∧ out.AuditAnnotations = [] ∧ out.Warnings = [] :=
  ⟨rfl, rfl, rfl, rfl,
    C1_success_uid_correlated sampleCodecs allowAll okWriter sampleBody sampleReview
      { UID := "abc", Operation := "CREATE" } { UID := "zzz", Allowed := true }
      rfl rfl rfl rfl⟩

/-- C2 as stated fails: for the error "no body" the document `writeErr` writes
is a bare AdmissionResponse, not an AdmissionReview whose Response holds the
Status; seen as an envelope it has no Response member at all. -/
theorem C2_error_doc_is_not_an_envelope :
    docs (writeErr (Errorf "no body") okWriter)
        = [Doc.response { UID := "", Allowed := false, Result := some { Message := "no body" } }]
    ∧ (docs (writeErr (Errorf "no body") okWriter)).map Doc.Response = [none]
    ∧ ¬ ∃ (ar : AdmissionReview) (r : AdmissionResponse) (st : Status),
        docs (writeErr (Errorf "no body") okWriter) = [Doc.review ar]
        ∧ ar.Response = some r ∧ r.Result = some st
        ∧ st.Message = (Errorf "no body").Error := by
  refine ⟨rfl, rfl, ?_⟩
  rintro ⟨ar, r, st, h, -⟩
  simp [writeErr, docs] at h

/-- C2 amended: for every error e, `writeErr` writes exactly one document, a
bare AdmissionResponse (top-level members uid, allowed, status; no Response
member) whose Status message is e's text, with empty UID and Allowed false;
and each error path of `ServeHTTP` (nil body, read error e, decode error e,
decision error e) is exactly that path's effects around this one document with
the text of the error of that path. -/
theorem C2_writeErr_bare_response (e : GoError) (w : ResponseWriter) :
    docs (writeErr e w)
        = [Doc.response { UID := "", Allowed := false, Result := some { Message := e.Error } }]
    ∧ (docs (writeErr e w)).map Doc.keys = [["uid", "allowed", "status"]]
    ∧ (docs (writeErr e w)).map Doc.Response = [none]
    ∧ (∀ (codecs : Deserializer) (a : AdmitFunc),
        ServeHTTP codecs a w ⟨none⟩
          = ⟨[Event.logError Logger.lg (Errorf "no body") "writing error response",
              Event.encode (Doc.response { UID := "", Allowed := false,
                                           Result := some { Message := "no body" } })],
             Outcome.returned⟩)
    ∧ (∀ (codecs : Deserializer) (a : AdmitFunc) (body : Body),
        body.err = some e →
        ServeHTTP codecs a w ⟨some body⟩
          = ⟨[Event.readAll,
              Event.logError Logger.lg e "writing error response",
              Event.encode (Doc.response { UID := "", Allowed := false,
                                           Result := some { Message := e.Error } }),
              Event.close], Outcome.returned⟩)
    ∧ (∀ (codecs : Deserializer) (a : AdmitFunc) (body : Body),
        body.err = none → codecs body.data = Except.error e →
        ServeHTTP codecs a w ⟨some body⟩
          = ⟨[Event.readAll, Event.decode body.data,
              Event.logError Logger.lg e "writing error response",
              Event.encode (Doc.response { UID := "", Allowed := false,
                                           Result := some { Message := e.Error } }),
              Event.close], Outcome.returned⟩)
    ∧ (∀ (codecs : Deserializer) (a : AdmitFunc) (body : Body) (ar : AdmissionReview)
        (res : Option AdmissionResponse),
        body.err = none → codecs body.data = Except.ok ar → a ar = (res, some e) →
        ServeHTTP codecs a w ⟨some body⟩
          = ⟨[Event.readAll, Event.decode body.data, Event.call ar,
              Event.logError Logger.lg e "writing error response",
              Event.encode (Doc.response { UID := "", Allowed := false,
                                           Result := some { Message := e.Error } }),
              Event.close], Outcome.returned⟩)
    ∧ ∀ (codecs : Deserializer) (a : AdmitFunc) (r : Request),
        (∃ body ar res, r.Body = some body ∧ body.err = none
            ∧ codecs body.data = Except.ok ar ∧ a ar = (res, none))
        ∨ ∃ e2 : GoError, docs (ServeHTTP codecs a w r).trace = docs (writeErr e2 w) := by
  refine ⟨rfl, rfl, rfl, fun _ _ => rfl, ?_, ?_, ?_, ?_⟩
  · intro codecs a body hread
    simp [ServeHTTP, serveBody, hread, writeErr]
  · intro codecs a body hread hdec
    simp [ServeHTTP, serveBody, hread, hdec, writeErr]
  · intro codecs a body ar res hread hdec hres
    simp [ServeHTTP, serveBody, hread, hdec, hres, writeErr]
  intro codecs a r
  rcases r with ⟨_ | body⟩
  · exact Or.inr ⟨Errorf "no body", rfl⟩
  · cases hread : body.err with
    | some err =>
      refine Or.inr ⟨err, ?_⟩
      simp [ServeHTTP, serveBody, hread, docs, writeErr]
    | none =>
      cases hdec : codecs body.data with
      | error err =>
        refine Or.inr ⟨err, ?_⟩
        simp [ServeHTTP, serveBody, hread, hdec, docs, writeErr]
      | ok ar =>
        rcases hres : a ar with ⟨res, _ | err⟩
        · exact Or.inl ⟨body, ar, res, rfl, hread, hdec, hres⟩
        · refine Or.inr ⟨err, ?_⟩
          simp [ServeHTTP, serveBody, hread, hdec, hres, docs, writeErr]

/-- Witness for C2 amended: a body whose read fails with "unexpected EOF". -/
theorem C2_writeErr_bare_response_witness :
    failingBody.err = some ⟨"unexpected EOF"⟩
    ∧ ServeHTTP sampleCodecs allowAll okWriter ⟨some failingBody⟩
        = ⟨[Event.readAll,
            Event.logError Logger.lg ⟨"unexpected EOF"⟩ "writing error response",
            Event.encode (Doc.response { UID := "", Allowed := false,
                                         Result := some { Message := "unexpected EOF" } }),
            Event.close], Outcome.returned⟩ :=
  ⟨rfl, (C2_writeErr_bare_response ⟨"unexpected EOF"⟩ okWriter).2.2.2.2.1
    sampleCodecs allowAll failingBody rfl⟩

/-- C3: when the decision function returns an error (with or without a response
alongside), the run is: read, decode, call, error log, one bare error document
with the error text, empty UID, Allowed false and no patch, then close. -/
theorem C3_decision_error (codecs : Deserializer) (a : AdmitFunc) (w : ResponseWriter)
    (body : Body) (ar : AdmissionReview) (res : Option AdmissionResponse) (e : GoError)
    (hread : body.err = none) (hdec : codecs body.data = Except.ok ar)
    (hres : a ar = (res, some e)) :
    ServeHTTP codecs a w ⟨some body⟩
        = ⟨[Event.readAll, Event.decode body.data, Event.call ar,
            Event.logError Logger.lg e "writing error response",
            Event.encode (Doc.response { UID := "", Allowed := false,
                                         Result := some { Message := e.Error },
                                         Patch := [], PatchType := none,
                                         AuditAnnotations := [], Warnings := [] }),
            Event.close], Outcome.returned⟩
    ∧ docs (ServeHTTP codecs a w ⟨some body⟩).trace
        = [Doc.response { UID := "", Allowed := false,
                          Result := some { Message := e.Error },
                          Patch := [], PatchType := none,
                          AuditAnnotations := [], Warnings := [] }] := by
  constructor <;> simp [ServeHTTP, serveBody, hread, hdec, hres, docs, writeErr]

/-- Witness for C3: request UID "abc"; the decision function fails with
"policy violation" and also returns an allowing response with a patch. -/
theorem C3_decision_error_witness :
    sampleBody.err = none ∧ sampleCodecs sampleBody.data = Except.ok sampleReview
    ∧ rejectAll sampleReview
        = (some { UID := "zzz", Allowed := true, Patch := [1, 2] }, some ⟨"policy violation"⟩)
    ∧ docs (ServeHTTP sampleCodecs rejectAll okWriter ⟨some sampleBody⟩).trace
        = [Doc.response { UID := "", Allowed := false,
                          Result := some { Message := "policy violation" },
                          Patch := [], PatchType := none,
                          AuditAnnotations := [], Warnings := [] }] :=
  ⟨rfl, rfl, rfl,
    (C3_decision_error sampleCodecs rejectAll okWriter sampleBody sampleReview
      (some { UID := "zzz", Allowed := true, Patch := [1, 2] }) ⟨"policy violation"⟩
      rfl rfl rfl).2⟩

/-- C4: with a nil body the run is the error log and one error document with
message "no body" and empty UID; the decision function is not invoked and
nothing is read, decoded or closed. -/
theorem C4_missing_body (codecs : Deserializer) (a : AdmitFunc) (w : ResponseWriter) :
    ServeHTTP codecs a w ⟨none⟩
        = ⟨[Event.logError Logger.lg (Errorf "no body") "writing error response",
            Event.encode (Doc.response { UID := "", Allowed := false,
                                         Result := some { Message := "no body" } })],
           Outcome.returned⟩
    ∧ docs (ServeHTTP codecs a w ⟨none⟩).trace
        = [Doc.response { UID := "", Allowed := false, Result := some { Message := "no body" } }]
    ∧ calls (ServeHTTP codecs a w ⟨none⟩).trace = []
    ∧ reads (ServeHTTP codecs a w ⟨none⟩).trace = 0
    ∧ decodes (ServeHTTP codecs a w ⟨none⟩).trace = [] :=
  ⟨rfl, rfl, rfl, rfl, rfl⟩

/-- C5: when the deserializer rejects the body bytes with error e, the one
document written is a bare error document with e's text and empty UID, and the
decision function is invoked zero times. -/
theorem C5_decode_failure (codecs : Deserializer) (a : AdmitFunc) (w : ResponseWriter)
    (body : Body) (e : GoError)
    (hread : body.err = none) (hdec : codecs body.data = Except.error e) :
    docs (ServeHTTP codecs a w ⟨some body⟩).trace
        = [Doc.response { UID := "", Allowed := false, Result := some { Message := e.Error } }]
    ∧ (calls (ServeHTTP codecs a w ⟨some body⟩).trace).length = 0 := by
  constructor <;> simp [ServeHTTP, serveBody, hread, hdec, docs, calls, writeErr]

/-- Witness for C5: a truncated JSON body, with a decision function that would
allow. -/
theorem C5_decode_failure_witness :
    truncatedBody.err = none
    ∧ sampleCodecs truncatedBody.data = Except.error truncatedErr
    ∧ docs (ServeHTTP sampleCodecs allowAll okWriter ⟨some truncatedBody⟩).trace
        = [Doc.response { UID := "", Allowed := false,
                          Result := some { Message := truncatedErr.Error } }]
    ∧ (calls (ServeHTTP sampleCodecs allowAll okWriter ⟨some truncatedBody⟩).trace).length = 0 :=
  ⟨rfl, rfl, C5_decode_failure sampleCodecs allowAll okWriter truncatedBody truncatedErr rfl rfl⟩

/-- C6: on the success path every document written is an envelope holding the
inbound TypeMeta, no Request, and a Response; its only possible top-level
members are kind, apiVersion and response; unless the handler faults (nil
response with a Request present) exactly one such envelope is written; and the
Response it holds is the one the decision function returned, unchanged when the
inbound envelope has no Request and with the UID of the Request otherwise. -/
theorem C6_outbound_envelope (codecs : Deserializer) (a : AdmitFunc) (w : ResponseWriter)
    (body : Body) (ar : AdmissionReview) (res : Option AdmissionResponse)
    (hread : body.err = none) (hdec : codecs body.data = Except.ok ar)
    (hres : a ar = (res, none)) :
    (∀ d ∈ docs (ServeHTTP codecs a w ⟨some body⟩).trace,
        (∃ out, d = Doc.review { TypeMeta := ar.TypeMeta, Request := none, Response := out })
        ∧ ∀ k ∈ d.keys, k = "kind" ∨ k = "apiVersion" ∨ k = "response")
    ∧ ((res.isSome ∨ ar.Request = none) →
        (docs (ServeHTTP codecs a w ⟨some body⟩).trace).length = 1)
    ∧ (ar.Request = none →
        docs (ServeHTTP codecs a w ⟨some body⟩).trace
          = [Doc.review { TypeMeta := ar.TypeMeta, Request := none, Response := res }])
    ∧ (∀ (req : AdmissionRequest) (r : AdmissionResponse),
        ar.Request = some req → res = some r →
        docs (ServeHTTP codecs a w ⟨some body⟩).trace
          = [Doc.review { TypeMeta := ar.TypeMeta, Request := none,
                          Response := some { r with UID := req.UID } }]) := by
  have hkeys : ∀ out : Option AdmissionResponse,
      ∀ k ∈ (Doc.review { TypeMeta := ar.TypeMeta, Request := none, Response := out }).keys,
        k = "kind" ∨ k = "apiVersion" ∨ k = "response" := by
    intro out k hk
    simp only [Doc.keys, List.mem_append] at hk
    rcases hk with ((hk | hk) | hk) | hk
    · split at hk <;> simp_all
    · split at hk <;> simp_all
    · simp at hk
    · split at hk <;> simp_all
  rw [ServeHTTP_success codecs a w body ar res hread hdec hres]
  cases hreq : ar.Request with
  | none =>
    simp only [respond, hreq, docs, docs_append, docs_encodeReview]
    refine ⟨?_, fun _ => rfl, fun _ => rfl, ?_⟩
    · intro d hd
      simp at hd
      subst hd
      exact ⟨⟨res, rfl⟩, hkeys res⟩
    · intro req r h
      simp at h
  | some req =>
    cases res with
    | none => simp [respond, hreq, docs]
    | some r =>
      simp only [respond, hreq, docs, docs_append, docs_encodeReview]
      refine ⟨?_, fun _ => rfl, ?_, ?_⟩
      · intro d hd
        simp at hd
        subst hd
        exact ⟨⟨_, rfl⟩, hkeys _⟩
      · intro h
        simp at h
      · intro req2 r2 h1 h2
        simp only [Option.some.injEq] at h1 h2
        subst h1 h2
        rfl

/-- Witness for C6: an inbound envelope with a Request of UID "abc", an allowing
decision with a UID of its own. -/
theorem C6_outbound_envelope_witness :
    sampleBody.err = none ∧ sampleCodecs sampleBody.data = Except.ok sampleReview
    ∧ allowAll sampleReview = (some { UID := "zzz", Allowed := true }, none)
    ∧ sampleReview.Request = some { UID := "abc", Operation := "CREATE" }
    ∧ docs (ServeHTTP sampleCodecs allowAll okWriter ⟨some sampleBody⟩).trace
        = [Doc.review { TypeMeta := { Kind := "AdmissionReview",
                                      APIVersion := "admission.k8s.io/v1" },
                        Request := none,
                        Response := some { UID := "abc", Allowed := true } }] :=
  ⟨rfl, rfl, rfl, rfl,
    (C6_outbound_envelope sampleCodecs allowAll okWriter sampleBody sampleReview
      (some { UID := "zzz", Allowed := true }) rfl rfl rfl).2.2.2
      { UID := "abc", Operation := "CREATE" } { UID := "zzz", Allowed := true } rfl rfl⟩

/-- C7 as stated fails: a present but zero-length body passes the nil check, is
read and decoded (to the zero review, without error), the decision function is
invoked, and the document written is its envelope, not a "no body" error. -/
theorem C7_empty_body_is_decided :
    ServeHTTP sampleCodecs allowAll okWriter ⟨some emptyBody⟩
        = ⟨[Event.readAll, Event.decode [], Event.call {},
            Event.logInfo Logger.lg { Response := some { UID := "zzz", Allowed := true } }
              "writing response",
            Event.encode (Doc.review { Response := some { UID := "zzz", Allowed := true } }),
            Event.close], Outcome.returned⟩
    ∧ calls (ServeHTTP sampleCodecs allowAll okWriter ⟨some emptyBody⟩).trace ≠ []
    ∧ docs (ServeHTTP sampleCodecs allowAll okWriter ⟨some emptyBody⟩).trace
        ≠ [errDoc "no body"] := by
  refine ⟨rfl, ?_, ?_⟩ <;> decide

/-- C7 amended: for a present but zero-length body the handler reads the body
and hands the empty bytes to the deserializer; when these decode without error
to the zero review, the decision function is invoked exactly once, on that
review, and the document written is the decision's: its response unchanged in
an envelope when it returns no error, an error document with the text of its
error otherwise. -/
theorem C7_empty_body_decided (codecs : Deserializer) (a : AdmitFunc)
    (w : ResponseWriter) (hdec : codecs [] = Except.ok ({} : AdmissionReview)) :
    calls (ServeHTTP codecs a w ⟨some ⟨[], none⟩⟩).trace = [({} : AdmissionReview)]
    ∧ reads (ServeHTTP codecs a w ⟨some ⟨[], none⟩⟩).trace = 1
    ∧ decodes (ServeHTTP codecs a w ⟨some ⟨[], none⟩⟩).trace = [[]]
    ∧ closes (ServeHTTP codecs a w ⟨some ⟨[], none⟩⟩).trace = 1
    ∧ (∀ res : Option AdmissionResponse, a {} = (res, none) →
        (ServeHTTP codecs a w ⟨some ⟨[], none⟩⟩).outcome = Outcome.returned
        ∧ docs (ServeHTTP codecs a w ⟨some ⟨[], none⟩⟩).trace
            = [Doc.review { TypeMeta := {}, Request := none, Response := res }])
    ∧ (∀ (res : Option AdmissionResponse) (e : GoError), a {} = (res, some e) →
        ServeHTTP codecs a w ⟨some ⟨[], none⟩⟩
          = ⟨[Event.readAll, Event.decode [], Event.call {},
              Event.logError Logger.lg e "writing error response",
              Event.encode (Doc.response { UID := "", Allowed := false,
                                           Result := some { Message := e.Error } }),
              Event.close], Outcome.returned⟩) := by
  have hx : ∀ res : Option AdmissionResponse,
      respond ({} : AdmissionReview) res w = encodeReview {} res w := fun _ => rfl
  rcases hres : a {} with ⟨res, _ | err⟩
  · rw [ServeHTTP_success codecs a w ⟨[], none⟩ {} res rfl hdec hres]
    have hcalls : ∀ xs ys, calls (xs ++ ys) = calls xs ++ calls ys := by
      intro xs ys
      induction xs with
      | nil => rfl
      | cons x xs ih => cases x <;> simp [calls, ih]
    have hreads : ∀ xs ys, reads (xs ++ ys) = reads xs + reads ys := by
      intro xs ys
      induction xs with
      | nil => simp [reads]
      | cons x xs ih => cases x <;> simp [reads, ih]; omega
    have hdecodes : ∀ xs ys, decodes (xs ++ ys) = decodes xs ++ decodes ys := by
      intro xs ys
      induction xs with
      | nil => rfl
      | cons x xs ih => cases x <;> simp [decodes, ih]
    have htr : ∀ tm res, calls (encodeReview tm res w).trace = []
        ∧ reads (encodeReview tm res w).trace = 0
        ∧ decodes (encodeReview tm res w).trace = [] := by
      intro tm res
      cases h : w.encodeErr (Doc.review { TypeMeta := tm, Response := res }) <;>
        simp [encodeReview, h, calls, reads, decodes]
    refine ⟨?_, ?_, ?_, ?_, ?_, ?_⟩
    · simp [calls, hcalls, hx, (htr _ _).1]
    · simp [reads, hreads, hx, (htr _ _).2.1]
    · simp [decodes, hdecodes, hx, (htr _ _).2.2]
    · simp [closes, closes_append, hx, closes_encodeReview]
    · intro res2 h2
      simp only [Prod.mk.injEq] at h2
      obtain ⟨h2, -⟩ := h2
      subst h2
      simp [hx, outcome_encodeReview, docs, docs_append, docs_encodeReview]
    · intro res2 e h2
      simp at h2
  · have hrun : ServeHTTP codecs a w ⟨some ⟨[], none⟩⟩
        = ⟨[Event.readAll, Event.decode [], Event.call {},
            Event.logError Logger.lg err "writing error response",
            Event.encode (Doc.response { UID := "", Allowed := false,
                                         Result := some { Message := err.Error } }),
            Event.close], Outcome.returned⟩ := by
      simp [ServeHTTP, serveBody, hdec, hres, writeErr]
    rw [hrun]
    refine ⟨rfl, rfl, rfl, rfl, ?_, ?_⟩
    · intro res2 h2
      simp at h2
    · intro res2 e h2
      simp only [Prod.mk.injEq, Option.some.injEq] at h2
      obtain ⟨-, h2⟩ := h2
      subst h2
      rfl

/-- Witness for C7 amended: the empty body with an allowing decision function. -/
theorem C7_empty_body_decided_witness :
    sampleCodecs [] = Except.ok ({} : AdmissionReview)
    ∧ calls (ServeHTTP sampleCodecs allowAll okWriter ⟨some ⟨[], none⟩⟩).trace
        = [({} : AdmissionReview)]
    ∧ docs (ServeHTTP sampleCodecs allowAll okWriter ⟨some ⟨[], none⟩⟩).trace
        = [Doc.review { TypeMeta := {}, Request := none,
                        Response := some { UID := "zzz", Allowed := true } }] :=
  ⟨rfl, (C7_empty_body_decided sampleCodecs allowAll okWriter rfl).1,
    ((C7_empty_body_decided sampleCodecs allowAll okWriter rfl).2.2.2.2.1
      (some { UID := "zzz", Allowed := true }) rfl).2⟩

/-- C8: whenever a body is present, whatever path the handler takes and however
it ends, the body stream is closed exactly once, as the last effect of the run. -/
theorem C8_body_closed_once (codecs : Deserializer) (a : AdmitFunc) (w : ResponseWriter)
    (body : Body) :
    closes (ServeHTTP codecs a w ⟨some body⟩).trace = 1
    ∧ (ServeHTTP codecs a w ⟨some body⟩).trace.getLast? = some Event.close := by
  constructor
  · simp [ServeHTTP, closes_append, closes_serveBody, closes]
  · simp [ServeHTTP]

/-- C9: every run that returns normally encodes exactly one document to the
response writer; and on the success path, when the encode of the envelope
fails, the only effects after it are the log of the failure and the close of
the body: no error document follows. -/
theorem C9_single_document (codecs : Deserializer) (a : AdmitFunc) (w : ResponseWriter)
    (r : Request) :
    ((ServeHTTP codecs a w r).outcome = Outcome.returned →
        (docs (ServeHTTP codecs a w r).trace).length = 1)
    ∧ ∀ (body : Body) (ar : AdmissionReview) (res : Option AdmissionResponse),
        r.Body = some body → body.err = none → codecs body.data = Except.ok ar →
        a ar = (res, none) → (ServeHTTP codecs a w r).outcome = Outcome.returned →
        ∃ env : AdmissionReview,
          docs (ServeHTTP codecs a w r).trace = [Doc.review env]
          ∧ ∀ werr : GoError, w.encodeErr (Doc.review env) = some werr →
              (ServeHTTP codecs a w r).trace
                = [Event.readAll, Event.decode body.data, Event.call ar,
                   Event.logInfo Logger.lg env "writing response",
                   Event.encode (Doc.review env),
                   Event.logError Logger.logrus werr "could not serialize admissionreview",
                   Event.close] := by
  constructor
  · intro h
    rcases r with ⟨_ | body⟩
    · rfl
    · simp only [ServeHTTP] at h ⊢
      simp [docs_append, docs, docs_serveBody_of_returned codecs a w body h]
  · intro body ar res hbody hread hdec hres hret
    rcases r with ⟨rb⟩
    simp only at hbody
    subst hbody
    rw [ServeHTTP_success codecs a w body ar res hread hdec hres] at hret ⊢
    simp only at hret ⊢
    cases hreq : ar.Request with
    | none =>
      refine ⟨{ TypeMeta := ar.TypeMeta, Request := none, Response := res }, ?_, ?_⟩
      · simp [respond, hreq, docs, docs_append, docs_encodeReview]
      · intro werr hw
        simp [respond, hreq, encodeReview_of_encodeErr _ _ _ _ hw]
    | some req =>
      cases res with
      | none => simp [respond, hreq] at hret
      | some rs =>
        refine ⟨{ TypeMeta := ar.TypeMeta, Request := none,
                  Response := some { rs with UID := req.UID } }, ?_, ?_⟩
        · simp [respond, hreq, docs, docs_append, docs_encodeReview]
        · intro werr hw
          simp [respond, hreq, encodeReview_of_encodeErr _ _ _ _ hw]

/-- Witness for C9: a successful decision whose envelope cannot be written. -/
theorem C9_single_document_witness :
    (ServeHTTP sampleCodecs allowAll brokenWriter ⟨some sampleBody⟩).outcome = Outcome.returned
    ∧ (docs (ServeHTTP sampleCodecs allowAll brokenWriter ⟨some sampleBody⟩).trace).length = 1 :=
  ⟨rfl, (C9_single_document sampleCodecs allowAll brokenWriter ⟨some sampleBody⟩).1 rfl⟩

/-- C10: when the decision function returns a non-nil response whenever it
returns no error, no run of the handler faults.  With a nil response and a nil
error the handler faults before any document is written if the decoded review
has a Request, and writes an envelope with an absent Response if it has none. -/
theorem C10_fault_freedom (codecs : Deserializer) (a : AdmitFunc) (w : ResponseWriter)
    (r : Request) :
    ((∀ ar res, a ar = (res, none) → res.isSome = true) →
        (ServeHTTP codecs a w r).outcome = Outcome.returned)
    ∧ (∀ (body : Body) (ar : AdmissionReview) (req : AdmissionRequest),
        r.Body = some body → body.err = none → codecs body.data = Except.ok ar →
        a ar = (none, none) → ar.Request = some req →
        ServeHTTP codecs a w r
            = ⟨[Event.readAll, Event.decode body.data, Event.call ar, Event.close],
               Outcome.panicked⟩
        ∧ docs (ServeHTTP codecs a w r).trace = [])
    ∧ (∀ (body : Body) (ar : AdmissionReview),
        r.Body = some body → body.err = none → codecs body.data = Except.ok ar →
        a ar = (none, none) → ar.Request = none →
        (ServeHTTP codecs a w r).outcome = Outcome.returned
        ∧ docs (ServeHTTP codecs a w r).trace
            = [Doc.review { TypeMeta := ar.TypeMeta, Request := none, Response := none }]) := by
  refine ⟨?_, ?_, ?_⟩
  · intro hpre
    rcases r with ⟨_ | body⟩
    · rfl
    · cases hread : body.err with
      | some err => simp [ServeHTTP, serveBody, hread]
      | none =>
        cases hdec : codecs body.data with
        | error err => simp [ServeHTTP, serveBody, hread, hdec]
        | ok ar =>
          rcases hres : a ar with ⟨res, _ | err⟩
          · have hsome := hpre ar res hres
            cases res with
            | none => simp at hsome
            | some rs =>
              rw [ServeHTTP_success codecs a w body ar (some rs) hread hdec hres]
              cases hreq : ar.Request <;> simp [respond, hreq, outcome_encodeReview]
          · simp [ServeHTTP, serveBody, hread, hdec, hres]
  · intro body ar req hbody hread hdec hres hreq
    rcases r with ⟨rb⟩
    simp only at hbody
    subst hbody
    rw [ServeHTTP_success codecs a w body ar none hread hdec hres]
    simp [respond, hreq, docs]
  · intro body ar hbody hread hdec hres hreq
    rcases r with ⟨rb⟩
    simp only at hbody
    subst hbody
    rw [ServeHTTP_success codecs a w body ar none hread hdec hres]
    simp [respond, hreq, docs, docs_append, docs_encodeReview, outcome_encodeReview]

/-- Witness for C10: the precondition holds for an allowing decision function;
a nil response with nil error faults on a review that has a Request, and gives
an envelope without Response on the zero review of an empty JSON object. -/
theorem C10_fault_freedom_witness :
    (ServeHTTP sampleCodecs allowAll okWriter ⟨some sampleBody⟩).outcome = Outcome.returned
    ∧ ServeHTTP sampleCodecs nilNil okWriter ⟨some sampleBody⟩
        = ⟨[Event.readAll, Event.decode sampleBytes, Event.call sampleReview, Event.close],
           Outcome.panicked⟩
    ∧ docs (ServeHTTP sampleCodecs nilNil okWriter ⟨some emptyObjectBody⟩).trace
        = [Doc.review { TypeMeta := {}, Request := none, Response := none }] :=
  ⟨(C10_fault_freedom sampleCodecs allowAll okWriter ⟨some sampleBody⟩).1
      (by
        intro ar res h
        simp only [allowAll, Prod.mk.injEq] at h
        rw [← h.1]
        rfl),
    ((C10_fault_freedom sampleCodecs nilNil okWriter ⟨some sampleBody⟩).2.1
      sampleBody sampleReview { UID := "abc", Operation := "CREATE" } rfl rfl rfl rfl rfl).1,
    ((C10_fault_freedom sampleCodecs nilNil okWriter ⟨some emptyObjectBody⟩).2.2
      emptyObjectBody {} rfl rfl rfl rfl rfl).2⟩

end Helpers
